import Mathlib

/-!
Verification development for the rootz-mcp-server repository (src/index.ts).

The source file contains two independent variants of the same tool set:

* `RootzMCPServer`  — regex-based file/HTML tools, clone-then-pull sync,
  handler errors thrown as `McpError` protocol faults;
* `RootzMCPService` — cheerio-based tools, wipe-and-reclone sync with
  caught-and-logged failures, a dispatcher that catches handler errors and
  returns `isError` responses.

JavaScript strings are embedded as `List Char` (`JStr`); external I/O
outcomes (git clone/pull, `fs.readFile`, `cat`) are passed in as explicit
`Except` parameters, and the cheerio parse is an explicit
function parameter, so every definition below is an executable translation
of the repository's own logic.
-/

abbrev JStr := List Char

/-- Whitespace characters recognised by the JavaScript `\s` class and
`String.prototype.trim`, restricted to the ASCII range used here. -/
def isJsWs (c : Char) : Bool :=
  c == ' ' || c == '\t' || c == '\n' || c == '\r' || c == '\x0b' || c == '\x0c'

/-- JavaScript `String.prototype.trim`: drop whitespace from both ends. -/
def jsTrim (s : JStr) : JStr :=
  ((s.dropWhile isJsWs).reverse.dropWhile isJsWs).reverse

/-- One step of the worker behind JavaScript `split(/\s+/)`: `cur` carries the
(reversed) pending token, `inWs` records whether the previous character was
part of a whitespace run (so that a run of whitespace produces one single
separator). -/
def splitWsGo : List Char → JStr → Bool → List JStr
  | [], cur, _ => [cur.reverse]
  | c :: cs, cur, inWs =>
    if isJsWs c then
      if inWs then splitWsGo cs [] true
      else cur.reverse :: splitWsGo cs [] true
    else splitWsGo cs (c :: cur) false

/-- JavaScript `s.split(/\s+/)`: tokens separated by maximal whitespace runs,
with an empty leading (resp. trailing) token when the string starts
(resp. ends) with whitespace. -/
def splitWs (s : JStr) : List JStr := splitWsGo s [] false

/-- JavaScript `Set.prototype.add`: keep the first occurrence, append fresh
elements at the end (JS sets iterate in insertion order). -/
def jsSetInsert {α : Type} [DecidableEq α] (s : List α) (a : α) : List α :=
  if a ∈ s then s else s ++ [a]

/-- The list of a JavaScript `Set` built by inserting the elements of `l` in
order (as in `new Set(l)` / repeated `add`), read back in insertion order
(as by `Array.from` or a spread). -/
def jsSetOfList {α : Type} [DecidableEq α] (l : List α) : List α :=
  l.foldl jsSetInsert []

/-- JavaScript string `<` comparison: lexicographic by code unit, a proper
prefix is smaller.  All strings in this development are in the BMP, so
code-unit order and `Char` order agree. -/
def jsStrLtB : JStr → JStr → Bool
  | [], [] => false
  | [], _ :: _ => true
  | _ :: _, [] => false
  | a :: as, b :: bs => if a < b then true else if b < a then false else jsStrLtB as bs

/-- JavaScript string `<=` comparison (the order used by the default
`Array.prototype.sort` comparator on strings). -/
def jsStrLeB (a b : JStr) : Bool := !(jsStrLtB b a)

/-- The propositional form of `jsStrLeB`, used to state sortedness. -/
def jsStrLe (a b : JStr) : Prop := jsStrLeB a b = true

instance : DecidableRel jsStrLe := fun a b => by
  unfold jsStrLe; infer_instance

theorem jsStrLtB_irrefl : ∀ a : JStr, jsStrLtB a a = false := by
  intro a
  induction a with
  | nil => rfl
  | cons c cs ih => simp [jsStrLtB, ih]

theorem jsStrLtB_cons_iff (a b : Char) (as bs : JStr) :
    jsStrLtB (a :: as) (b :: bs) = true ↔ a < b ∨ (a = b ∧ jsStrLtB as bs = true) := by
  constructor
  · intro h
    by_cases h1 : a < b
    · exact Or.inl h1
    · by_cases h2 : b < a
      · rw [jsStrLtB, if_neg h1, if_pos h2] at h
        exact Bool.noConfusion h
      · rw [jsStrLtB, if_neg h1, if_neg h2] at h
        exact Or.inr ⟨le_antisymm (not_lt.mp h2) (not_lt.mp h1), h⟩
  · intro h
    rcases h with h1 | ⟨rfl, h2⟩
    · rw [jsStrLtB, if_pos h1]
    · rw [jsStrLtB, if_neg (lt_irrefl a), if_neg (lt_irrefl a)]
      exact h2

theorem jsStrLtB_trans :
    ∀ a b c : JStr, jsStrLtB a b = true → jsStrLtB b c = true → jsStrLtB a c = true := by
  intro a
  induction a with
  | nil =>
    intro b c hab hbc
    cases b with
    | nil => simp [jsStrLtB] at hab
    | cons y ys =>
      cases c with
      | nil => simp [jsStrLtB] at hbc
      | cons z zs => simp [jsStrLtB]
  | cons x xs ih =>
    intro b c hab hbc
    cases b with
    | nil => simp [jsStrLtB] at hab
    | cons y ys =>
      cases c with
      | nil => simp [jsStrLtB] at hbc
      | cons z zs =>
        rw [jsStrLtB_cons_iff] at hab hbc ⊢
        rcases hab with h1 | ⟨rfl, h1⟩
        · rcases hbc with h2 | ⟨rfl, h2⟩
          · exact Or.inl (lt_trans h1 h2)
          · exact Or.inl h1
        · rcases hbc with h2 | ⟨rfl, h2⟩
          · exact Or.inl h2
          · exact Or.inr ⟨rfl, ih _ _ h1 h2⟩

theorem jsStrLtB_connex :
    ∀ a b : JStr, jsStrLtB a b = false → jsStrLtB b a = false → a = b := by
  intro a
  induction a with
  | nil =>
    intro b hab _
    cases b with
    | nil => rfl
    | cons y ys => simp [jsStrLtB] at hab
  | cons x xs ih =>
    intro b hab hba
    cases b with
    | nil => simp [jsStrLtB] at hba
    | cons y ys =>
      have hab' : ¬ (x < y ∨ (x = y ∧ jsStrLtB xs ys = true)) := by
        rw [← jsStrLtB_cons_iff]
        simp [hab]
      have hba' : ¬ (y < x ∨ (y = x ∧ jsStrLtB ys xs = true)) := by
        rw [← jsStrLtB_cons_iff]
        simp [hba]
      push_neg at hab' hba'
      have hxy : x = y := le_antisymm hba'.1 hab'.1
      subst hxy
      have h1 : jsStrLtB xs ys = false := by
        have := hab'.2 rfl
        simpa using this
      have h2 : jsStrLtB ys xs = false := by
        have := hba'.2 rfl
        simpa using this
      exact congrArg (x :: ·) (ih ys h1 h2)

theorem jsStrLtB_asymm :
    ∀ a b : JStr, jsStrLtB a b = true → jsStrLtB b a = false := by
  intro a b hab
  by_contra h
  have hba : jsStrLtB b a = true := by
    cases hh : jsStrLtB b a with
    | false => exact absurd hh h
    | true => rfl
  have := jsStrLtB_trans a b a hab hba
  rw [jsStrLtB_irrefl] at this
  exact Bool.noConfusion this

instance : IsTotal JStr jsStrLe := by
  constructor
  intro a b
  unfold jsStrLe jsStrLeB
  cases h : jsStrLtB b a with
  | false => left; rfl
  | true => right; rw [jsStrLtB_asymm b a h]; rfl

instance : IsTrans JStr jsStrLe := by
  constructor
  intro a b c hab hbc
  unfold jsStrLe jsStrLeB at *
  cases hba : jsStrLtB b a with
  | true => rw [hba] at hab; exact Bool.noConfusion hab
  | false =>
    cases hcb : jsStrLtB c b with
    | true => rw [hcb] at hbc; exact Bool.noConfusion hbc
    | false =>
      cases hca : jsStrLtB c a with
      | false => rfl
      | true =>
        exfalso
        cases hbc2 : jsStrLtB b c with
        | true =>
          have := jsStrLtB_trans b c a hbc2 hca
          rw [this] at hba
          exact Bool.noConfusion hba
        | false =>
          have hbceq : b = c := jsStrLtB_connex b c hbc2 hcb
          subst hbceq
          rw [hca] at hba
          exact Bool.noConfusion hba

/-- JavaScript `Array.prototype.sort()` with the default comparator on an
array of strings: sort ascending in the code-unit lexicographic order. -/
def jsSortL (l : List JStr) : List JStr := List.insertionSort jsStrLe l

/-- Whether an `Except` value is a success (`.ok`). -/
def exceptOk {ε α : Type} : Except ε α → Bool
  | .ok _ => true
  | .error _ => false

deriving instance DecidableEq for Except

namespace RootzMCPServer

/-- The fixed local mirror directory of the first variant (`LOCAL_PATH`). -/
def LOCAL_PATH : JStr := "./rootz-project".data

/-- JavaScript regex `\w`: ASCII letters, digits and underscore. -/
def isWordChar (c : Char) : Bool := c.isAlpha || c.isDigit || c == '_'

/-- Quote characters matched by the character class of the attribute
regexes: a double quote or a single quote (code unit 39). -/
def isQuoteCh (c : Char) : Bool := c == '"' || c.toNat == 39

/-- Anchored match of the shape shared by `/class=["']([^"']+)["']/` and
`/id=["']([^"']+)["']/` after their literal keyword: a quote, one or more
non-quote characters (captured), and a closing quote.  Returns the capture
and the remainder of the input after the whole match. -/
def matchQuotedValue (s : JStr) : Option (JStr × JStr) :=
  match s with
  | [] => none
  | q :: rest =>
    if isQuoteCh q then
      let v := rest.takeWhile (fun c => !(isQuoteCh c))
      if v.isEmpty then none
      else
        match rest.dropWhile (fun c => !(isQuoteCh c)) with
        | [] => none
        | _ :: rest2 => some (v, rest2)
    else none

/-- Anchored match of `/class=["']([^"']+)["']/` at the head of the input. -/
def matchClassAt (s : JStr) : Option (JStr × JStr) :=
  match s with
  | 'c' :: 'l' :: 'a' :: 's' :: 's' :: '=' :: rest => matchQuotedValue rest
  | _ => none

/-- Anchored match of `/id=["']([^"']+)["']/` at the head of the input. -/
def matchIdAt (s : JStr) : Option (JStr × JStr) :=
  match s with
  | 'i' :: 'd' :: '=' :: rest => matchQuotedValue rest
  | _ => none

/-- Anchored match of `/<(\w+)[^>]*>/` at the head of the input: a literal
`<`, one or more word characters (captured), any run of non-`>` characters,
and a `>`.  The greedy `[^>]*` together with the required `>` means the
match ends at the first `>` after the tag name. -/
def matchTagAt (s : JStr) : Option (JStr × JStr) :=
  match s with
  | '<' :: rest =>
    let w := rest.takeWhile isWordChar
    if w.isEmpty then none
    else
      match (rest.dropWhile isWordChar).dropWhile (fun c => !(c == '>')) with
      | [] => none
      | _ :: rest2 => some (w, rest2)
  | _ => none

end RootzMCPServer

/-- The global-regex `exec` loop: repeatedly find the leftmost match of the
anchored matcher `m`, collect its capture, and continue after the match
(on no match at the current position, advance one character, as the regex
engine's search does).  Each iteration consumes at least one character, so
the input length bounds the number of iterations and is used as fuel. -/
def scanMatches (m : JStr → Option (JStr × JStr)) : Nat → JStr → List JStr
  | 0, _ => []
  | _ + 1, [] => []
  | fuel + 1, c :: cs =>
    match m (c :: cs) with
    | some (cap, rest) => cap :: scanMatches m fuel rest
    | none => scanMatches m fuel cs

namespace RootzMCPServer

/-- All captures of `classRegex.exec` over the file text, in match order. -/
def scanClassAttrs (s : JStr) : List JStr := scanMatches matchClassAt s.length s

/-- All captures of `idRegex.exec` over the file text, in match order. -/
def scanIdAttrs (s : JStr) : List JStr := scanMatches matchIdAt s.length s

/-- All captures of `tagRegex.exec` over the file text, in match order. -/
def scanOpenTags (s : JStr) : List JStr := scanMatches matchTagAt s.length s

/-- The `analysis` record built by `analyzeHtmlStructure` (the `file` and
`summary` fields, being derived presentation data, are omitted). -/
structure Analysis where
  classes : List JStr
  ids : List JStr
  tags : List JStr
deriving DecidableEq

/-- The pure analysis logic of `RootzMCPServer.analyzeHtmlStructure` on the
file text: each captured `class` value is split on single spaces, each part
trimmed and added to a `Set`; `id` captures and tag-name captures are added
verbatim; each `Set` is then read with `Array.from` and sorted with the
default string sort. -/
def analyzeHtml (stdout : JStr) : Analysis :=
  let classTokens := (scanClassAttrs stdout).foldr
    (fun v acc => ((v.splitOn ' ').map jsTrim) ++ acc) []
  { classes := jsSortL (jsSetOfList classTokens)
    ids := jsSortL (jsSetOfList (scanIdAttrs stdout))
    tags := jsSortL (jsSetOfList (scanOpenTags stdout)) }

/-- Error codes of `McpError` used by the first variant. -/
inductive ECode where
  | invalidParams
  | internalError
  | methodNotFound
deriving DecidableEq

/-- A thrown `McpError` (protocol-level fault): an error code and message. -/
structure McpErr where
  code : ECode
  message : JStr
deriving DecidableEq

/-- A normal tool response: the single text content block and the `isError`
flag (absent in the first variant's responses, hence `false`). -/
structure ToolResponse where
  text : JStr
  isError : Bool
deriving DecidableEq

/-- Result of running a first-variant handler: either a response or a thrown
`McpError`, together with whether the `cat` file read was reached. -/
structure HandlerResult where
  result : Except McpErr ToolResponse
  readAttempted : Bool
deriving DecidableEq

/-- JavaScript falsiness of the `path` argument: absent (`undefined`) or the
empty string. -/
def jsFalsyStr : Option JStr → Bool
  | none => true
  | some s => s.isEmpty

/-- The response text built by `getFileContent` from the raw `cat` output:
over 45000 characters, a truncation header, the first 45000 characters and
a truncation footer; otherwise a `File:` header and the full content. -/
def formatFileContent (path stdout : JStr) : JStr :=
  if stdout.length > 45000 then
    "File content (truncated to 45KB):\n\n".data ++ stdout.take 45000
      ++ "\n\n[Content truncated due to size limit]".data
  else
    "File: ".data ++ path ++ "\n\n".data ++ stdout

/-- `RootzMCPServer.getFileContent`: reject a falsy path with an
`InvalidParams` `McpError` before any read; otherwise run `cat` (its outcome
is the `readResult` parameter) and either format the content or throw an
`InternalError` `McpError` carrying the read error. -/
def getFileContent (pathArg : Option JStr) (readResult : Except JStr JStr) :
    HandlerResult :=
  if jsFalsyStr pathArg then
    ⟨.error ⟨.invalidParams, "Path is required".data⟩, false⟩
  else
    match readResult with
    | .ok stdout =>
      ⟨.ok ⟨formatFileContent (pathArg.getD []) stdout, false⟩, true⟩
    | .error e =>
      ⟨.error ⟨.internalError,
        "Failed to read file ".data ++ pathArg.getD [] ++ ": ".data ++ e⟩, true⟩

/-- `RootzMCPServer.analyzeHtmlStructure`: the same falsy-path rejection
before any read, then the regex analysis of the `cat` output or an
`InternalError` `McpError`; the boolean records whether the read was
reached.  (The response text serialises the returned record as JSON; the
serialisation itself carries no additional logic and is not modelled.) -/
def analyzeHtmlStructure (pathArg : Option JStr) (readResult : Except JStr JStr) :
    Except McpErr Analysis × Bool :=
  if jsFalsyStr pathArg then
    (.error ⟨.invalidParams, "Path is required".data⟩, false)
  else
    match readResult with
    | .ok stdout => (.ok (analyzeHtml stdout), true)
    | .error e =>
      (.error ⟨.internalError,
        "Failed to analyze file ".data ++ pathArg.getD [] ++ ": ".data ++ e⟩, true)

/-- The fixed success response of `syncRepository`. -/
def syncOkResponse : ToolResponse :=
  ⟨"Repository synced successfully with latest changes from GitHub".data, false⟩

/-- `RootzMCPServer.syncRepository`: try `git clone`; on any clone failure
(the caught error is not inspected) fall through to `git pull origin main`;
if that also fails, the outer catch throws an `InternalError` `McpError`
carrying the pull's error.  The pull is never run when the clone succeeds. -/
def syncRepository (cloneResult pullResult : Except JStr Unit) :
    Except McpErr ToolResponse :=
  match cloneResult with
  | .ok _ => .ok syncOkResponse
  | .error _ =>
    match pullResult with
    | .ok _ => .ok syncOkResponse
    | .error e => .error ⟨.internalError, "Failed to sync repository: ".data ++ e⟩

/-- The path handed to `cat` by `getFileContent`: the template
`${LOCAL_PATH}/${path}` with no validation of the relative path. -/
def resolvePath (path : JStr) : JStr := LOCAL_PATH ++ "/".data ++ path

end RootzMCPServer

/-- Split a path string on `/` separators. -/
def splitSlash (s : JStr) : List JStr := s.splitOn '/'

/-- Lexical normalisation of a component list: drop empty and `.` segments,
let `..` pop the previous real segment (or survive at the top, reaching
above the starting directory).  `acc` holds the processed segments in
reverse. -/
def normComponents : List JStr → List JStr → List JStr
  | acc, [] => acc.reverse
  | acc, c :: rest =>
    if c = [] ∨ c = ".".data then normComponents acc rest
    else if c = "..".data then
      match acc with
      | [] => normComponents ("..".data :: acc) rest
      | a :: as =>
        if a = "..".data then normComponents (c :: a :: as) rest
        else normComponents as rest
    else normComponents (c :: acc) rest

namespace RootzMCPServer

/-- The normalised components of the mirror root `./rootz-project`. -/
def mirrorRootComponents : List JStr := normComponents [] (splitSlash LOCAL_PATH)

/-- Whether the path handed to `cat` for the given relative path lexically
resolves outside the mirror root: its normalised components do not extend
those of the root. -/
def escapesMirrorRoot (path : JStr) : Bool :=
  !(mirrorRootComponents.isPrefixOf (normComponents [] (splitSlash (resolvePath path))))

end RootzMCPServer

namespace RootzMCPService

/-- `MAX_FILE_SIZE` of the second variant. -/
def MAX_FILE_SIZE : Nat := 45000

/-- The literal marker appended to truncated content by the second variant. -/
def truncMark : JStr := "\n\n--- [File truncated] ---".data

/-- The size policy of `RootzMCPService.getFileContent` applied to the text
read by `fs.readFile` (a `pullLatest`, whose failures are swallowed,
precedes the read and does not affect this value): over `MAX_FILE_SIZE`
characters, the prefix of that length with the truncation marker appended;
otherwise the content unchanged. -/
def getFileContent (content : JStr) : JStr :=
  if content.length > MAX_FILE_SIZE then content.take MAX_FILE_SIZE ++ truncMark
  else content

/-- One element as seen by the cheerio traversal `$('*').each`: its
`tagName` (possibly `undefined` on non-tag nodes) and its `class` and `id`
attribute values (absent attributes are `undefined`). -/
structure CheerioElem where
  tagName : Option JStr
  classAttr : Option JStr
  idAttr : Option JStr
deriving DecidableEq

/-- One entry of the `elements` array: the (lowercased) tag name and the
raw attribute strings. -/
structure ElemRec where
  tag : JStr
  cls : Option JStr
  id : Option JStr
deriving DecidableEq

/-- The `analysis` record built by `analyzeHTML`.  Note there is no `tags`
field in this variant. -/
structure Analysis where
  classes : List JStr
  ids : List JStr
  elements : List ElemRec
deriving DecidableEq

/-- `elem.tagName?.toLowerCase() || 'unknown'`: lowercase the tag name, and
fall back to `unknown` when the name is `undefined` or lowercases to the
(falsy) empty string. -/
def cheerioTagOf (e : CheerioElem) : JStr :=
  match e.tagName with
  | some t => if (t.map Char.toLower).isEmpty then "unknown".data else t.map Char.toLower
  | none => "unknown".data

/-- The class tokens pushed for one element: `classes.split(/\s+/)` when the
`class` attribute is truthy, nothing otherwise. -/
def classTokensOf (e : CheerioElem) : List JStr :=
  match e.classAttr with
  | some cs => if cs.isEmpty then [] else splitWs cs
  | none => []

/-- The pure analysis logic of `RootzMCPService.analyzeHTML` over the
elements produced by the cheerio parse of the (already size-bounded) file
text: push split class tokens and truthy ids in document order, record one
`elements` entry per element, then deduplicate `classes` and `ids` with
`[...new Set(...)]` — with no sorting. -/
def analyzeHTML (elems : List CheerioElem) : Analysis :=
  let pushedClasses := elems.foldr (fun e acc => classTokensOf e ++ acc) []
  let pushedIds := elems.filterMap
    (fun e => match e.idAttr with
      | some i => if i.isEmpty then none else some i
      | none => none)
  { classes := jsSetOfList pushedClasses
    ids := jsSetOfList pushedIds
    elements := elems.map (fun e => ⟨cheerioTagOf e, e.classAttr, e.idAttr⟩) }

/-- Outcome of a second-variant sync helper (`initializeSync` or
`pullLatest`): `thrown` is the error propagated to the caller, `logged` the
error only written to the console. -/
structure SyncTrace where
  thrown : Option JStr
  logged : Option JStr
deriving DecidableEq

/-- `RootzMCPService.initializeSync`: remove the local directory, clone the
remote; any failure is caught and logged, never rethrown. -/
def initializeSync (cloneResult : Except JStr Unit) : SyncTrace :=
  match cloneResult with
  | .ok _ => ⟨none, none⟩
  | .error e => ⟨none, some e⟩

/-- `RootzMCPService.pullLatest`: pull `origin main` into the local
directory; any failure is caught and logged, never rethrown. -/
def pullLatest (pullResult : Except JStr Unit) : SyncTrace :=
  match pullResult with
  | .ok _ => ⟨none, none⟩
  | .error e => ⟨none, some e⟩

/-- `error?.message || 'Unknown error'`: fall back when the message is the
(falsy) empty string. -/
def msgOrUnknown (e : JStr) : JStr :=
  if e.isEmpty then "Unknown error".data else e

/-- The message of the `TypeError` thrown by `path.join` when the path
argument is `undefined` (Node runtime behaviour at the boundary). -/
def pathJoinTypeErrorMsg : JStr :=
  "The \"path\" argument must be of type string. Received undefined".data

/-- A second-variant dispatcher response (single text block and `isError`),
together with whether the `fs.readFile` call was reached. -/
structure CallTrace where
  text : JStr
  isError : Bool
  readAttempted : Bool
deriving DecidableEq

/-- The second variant's `CallToolRequestSchema` handler on
`get_file_content`: everything runs inside one `try`; an absent
`file_path` makes `path.join` throw before the read, a read failure throws
after it, and every caught error becomes a normal response with
`isError = true` and message `Error: ...`; on success the response wraps
the size-bounded content. -/
def callToolFile (fileArg : Option JStr) (readResult : Except JStr JStr) :
    CallTrace :=
  match fileArg with
  | none => ⟨"Error: ".data ++ msgOrUnknown pathJoinTypeErrorMsg, true, false⟩
  | some p =>
    match readResult with
    | .error e => ⟨"Error: ".data ++ msgOrUnknown e, true, true⟩
    | .ok c => ⟨"File: ".data ++ p ++ "\n\n".data ++ getFileContent c, false, true⟩

/-- Outcome of the `analyze_html_structure` arm: the analysis on success,
the caught error's response text on failure. -/
inductive AnalyzeOutcome where
  | ok (a : Analysis)
  | err (msg : JStr)
deriving DecidableEq

/-- The second variant's `CallToolRequestSchema` handler on
`analyze_html_structure`: `analyzeHTML` reads through `getFileContent`
(so the parse runs on the size-bounded text) with the same catch-all; the
boolean records whether the `fs.readFile` call was reached. -/
def callToolAnalyze (htmlArg : Option JStr) (readResult : Except JStr JStr)
    (parse : JStr → List CheerioElem) : AnalyzeOutcome × Bool :=
  match htmlArg with
  | none => (.err ("Error: ".data ++ msgOrUnknown pathJoinTypeErrorMsg), false)
  | some _ =>
    match readResult with
    | .error e => (.err ("Error: ".data ++ msgOrUnknown e), true)
    | .ok c => (.ok (analyzeHTML (parse (getFileContent c))), true)

end RootzMCPService

/-- An environment at the git boundary for one sync attempt: whether the
local mirror directory already exists and whether the remote is
reachable. -/
structure GitEnv where
  dirPresent : Bool
  remoteOk : Bool
deriving DecidableEq

/-- Modelled from the spec: the outcome of `git clone <remote> <dir>` at the
remote-repository boundary (§6) — it fails when the destination directory
already exists, and otherwise fails exactly when the remote is
unreachable. -/
def gitCloneResult (env : GitEnv) : Except JStr Unit :=
  if env.dirPresent then .error "fatal: destination path already exists and is not an empty directory".data
  else if env.remoteOk then .ok ()
  else .error "fatal: unable to access remote repository".data

/-- Modelled from the spec: the outcome of `cd <dir> && git pull origin
main` — it fails when the directory is absent (the `cd` fails), and
otherwise fails exactly when the remote is unreachable. -/
def gitPullResult (env : GitEnv) : Except JStr Unit :=
  if !env.dirPresent then .error "no such file or directory".data
  else if env.remoteOk then .ok ()
  else .error "fatal: unable to access remote repository".data

/-- Modelled from the spec: the observable file tree of the local mirror
(`none` when the directory is absent), as transformed by one
`RootzMCPServer.syncRepository` call under no remote changes — a clone
into an absent directory creates the remote's tree; a pull into an
existing tracking directory brings it to the remote's tree; a failed
attempt leaves the tree unchanged. -/
def serverSyncTree {α : Type} (remote : α) (remoteOk : Bool) :
    Option α → Option α
  | none => if remoteOk then some remote else none
  | some t => if remoteOk then some remote else some t

/-- Modelled from the spec: the observable file tree of the local mirror as
transformed by one `RootzMCPService.initializeSync` call — the directory
is removed and recloned, so a successful call yields the remote's tree and
a failed clone leaves no directory. -/
def serviceSyncTree {α : Type} (remote : α) (remoteOk : Bool) :
    Option α → Option α
  | _ => if remoteOk then some remote else none

theorem jsSetInsert_nodup {α : Type} [DecidableEq α] (s : List α) (a : α)
    (h : s.Nodup) : (jsSetInsert s a).Nodup := by
  unfold jsSetInsert
  split
  · exact h
  · rename_i hna
    rw [List.nodup_append]
    refine ⟨h, List.nodup_singleton a, ?_⟩
    intro x hx hxa
    rw [List.mem_singleton] at hxa
    subst hxa
    exact hna hx

theorem nodup_foldl_jsSetInsert {α : Type} [DecidableEq α] :
    ∀ (l s : List α), s.Nodup → (l.foldl jsSetInsert s).Nodup := by
  intro l
  induction l with
  | nil => intro s hs; simpa using hs
  | cons a l ih => intro s hs; exact ih _ (jsSetInsert_nodup s a hs)

theorem jsSetOfList_nodup {α : Type} [DecidableEq α] (l : List α) :
    (jsSetOfList l).Nodup :=
  nodup_foldl_jsSetInsert l [] List.nodup_nil

theorem mem_jsSetInsert {α : Type} [DecidableEq α] {x a : α} {s : List α}
    (h : x ∈ jsSetInsert s a) : x ∈ s ∨ x = a := by
  unfold jsSetInsert at h
  split at h
  · exact Or.inl h
  · rcases List.mem_append.mp h with h | h
    · exact Or.inl h
    · exact Or.inr (List.mem_singleton.mp h)

theorem mem_foldl_jsSetInsert {α : Type} [DecidableEq α] :
    ∀ (l s : List α) (x : α), x ∈ l.foldl jsSetInsert s → x ∈ s ∨ x ∈ l := by
  intro l
  induction l with
  | nil => intro s x h; exact Or.inl h
  | cons a l ih =>
    intro s x h
    rcases ih _ x h with h | h
    · rcases mem_jsSetInsert h with h | h
      · exact Or.inl h
      · exact Or.inr (by simp [h])
    · exact Or.inr (List.mem_cons_of_mem _ h)

theorem mem_of_mem_jsSetOfList {α : Type} [DecidableEq α] {x : α} {l : List α}
    (h : x ∈ jsSetOfList l) : x ∈ l := by
  rcases mem_foldl_jsSetInsert l [] x h with h | h
  · simp at h
  · exact h

theorem jsSortL_sorted (l : List JStr) : List.Sorted jsStrLe (jsSortL l) :=
  List.sorted_insertionSort jsStrLe l

theorem jsSortL_perm (l : List JStr) : (jsSortL l).Perm l :=
  List.perm_insertionSort jsStrLe l

theorem jsSortL_nodup {l : List JStr} (h : l.Nodup) : (jsSortL l).Nodup :=
  ((jsSortL_perm l).nodup_iff).mpr h

theorem mem_of_mem_jsSortL {x : JStr} {l : List JStr} (h : x ∈ jsSortL l) :
    x ∈ l :=
  (jsSortL_perm l).mem_iff.mp h

theorem service_getFileContent_of_gt {c : JStr}
    (h : c.length > RootzMCPService.MAX_FILE_SIZE) :
    RootzMCPService.getFileContent c =
      c.take RootzMCPService.MAX_FILE_SIZE ++ RootzMCPService.truncMark := by
  unfold RootzMCPService.getFileContent
  rw [if_pos h]

theorem service_getFileContent_of_le {c : JStr}
    (h : c.length ≤ RootzMCPService.MAX_FILE_SIZE) :
    RootzMCPService.getFileContent c = c := by
  unfold RootzMCPService.getFileContent
  rw [if_neg (by omega)]

theorem truncMark_length : RootzMCPService.truncMark.length = 26 := by decide

/-- C1, counterexample: on a 45001-character file the second variant's
bounded reader returns the 45000-character prefix with the 26-character
truncation marker appended, so the returned content has length 45026 — it
is not "exactly the first 45000 characters" and its length exceeds
45000, contrary to the claim. -/
theorem C1_counterexample :
    (RootzMCPService.getFileContent (List.replicate 45001 'a')).length = 45026 := by
  have hgt : (List.replicate 45001 'a').length > RootzMCPService.MAX_FILE_SIZE := by
    rw [List.length_replicate]; norm_num [RootzMCPService.MAX_FILE_SIZE]
  rw [service_getFileContent_of_gt hgt, List.length_append, List.length_take,
    List.length_replicate, truncMark_length]
  rfl

/-- C1, amended: for content longer than 45000 characters the returned text
is the first 45000 characters with a fixed truncation marker appended (the
first variant additionally wraps it in a truncation header and footer,
which is the truncation signal — there is no boolean flag); otherwise the
content is returned unchanged (the first variant prefixes a `File:`
header).  The returned text's length is bounded by 45000 plus the marker
length, not by 45000. -/
theorem C1_thm (content path : JStr) :
    (RootzMCPService.getFileContent content).length
        ≤ 45000 + RootzMCPService.truncMark.length ∧
    (content.length > 45000 →
      RootzMCPService.getFileContent content =
        content.take 45000 ++ RootzMCPService.truncMark ∧
      RootzMCPServer.formatFileContent path content =
        "File content (truncated to 45KB):\n\n".data ++ content.take 45000
          ++ "\n\n[Content truncated due to size limit]".data) ∧
    (content.length ≤ 45000 →
      RootzMCPService.getFileContent content = content ∧
      RootzMCPServer.formatFileContent path content =
        "File: ".data ++ path ++ "\n\n".data ++ content) := by
  refine ⟨?_, fun h => ⟨service_getFileContent_of_gt h, ?_⟩,
    fun h => ⟨service_getFileContent_of_le h, ?_⟩⟩
  · unfold RootzMCPService.getFileContent RootzMCPService.MAX_FILE_SIZE
    split
    · rw [List.length_append, List.length_take]
      omega
    · omega
  · unfold RootzMCPServer.formatFileContent
    rw [if_pos h]
  · unfold RootzMCPServer.formatFileContent
    rw [if_neg (by omega)]

/-- C1, witness: the amended truncation equation evaluated on a concrete
45001-character content (over the limit) and on the two-character content
`hi` (under the limit). -/
theorem C1_witness :
    RootzMCPService.getFileContent (List.replicate 45001 'a') =
        List.replicate 45000 'a' ++ RootzMCPService.truncMark ∧
    RootzMCPService.getFileContent "hi".data = "hi".data := by
  constructor
  · have h := ((C1_thm (List.replicate 45001 'a') []).2.1
      (by rw [List.length_replicate]; norm_num)).1
    rw [h, List.take_replicate]
    norm_num
  · exact ((C1_thm "hi".data []).2.2 (by decide)).1

/-- C2, counterexample: the cheerio variant only deduplicates — it never
sorts.  On the element list of `<div class="b a"></div>` its `classes`
come out in document order `["b", "a"]`, which is not ascending. -/
theorem C2_counterexample :
    (RootzMCPService.analyzeHTML [⟨some "div".data, some "b a".data, none⟩]).classes
        = ["b".data, "a".data] ∧
    jsStrLeB "b".data "a".data = false := by
  constructor <;> decide

/-- C2, amended: in the regex variant `classes`, `ids` and `tags` are each
duplicate-free and sorted ascending in the JavaScript string order; in the
cheerio variant `classes` and `ids` are duplicate-free but kept in
first-occurrence document order (not sorted), and there is no `tags`
collection at all. -/
theorem C2_thm (stdout : JStr) (elems : List RootzMCPService.CheerioElem) :
    (RootzMCPServer.analyzeHtml stdout).classes.Nodup ∧
    List.Sorted jsStrLe (RootzMCPServer.analyzeHtml stdout).classes ∧
    (RootzMCPServer.analyzeHtml stdout).ids.Nodup ∧
    List.Sorted jsStrLe (RootzMCPServer.analyzeHtml stdout).ids ∧
    (RootzMCPServer.analyzeHtml stdout).tags.Nodup ∧
    List.Sorted jsStrLe (RootzMCPServer.analyzeHtml stdout).tags ∧
    (RootzMCPService.analyzeHTML elems).classes.Nodup ∧
    (RootzMCPService.analyzeHTML elems).ids.Nodup :=
  ⟨jsSortL_nodup (jsSetOfList_nodup _), jsSortL_sorted _,
   jsSortL_nodup (jsSetOfList_nodup _), jsSortL_sorted _,
   jsSortL_nodup (jsSetOfList_nodup _), jsSortL_sorted _,
   jsSetOfList_nodup _, jsSetOfList_nodup _⟩

/-- C3, counterexample: in the first variant a failing read makes
`getFileContent` throw an `InternalError` `McpError` — a protocol-level
fault — instead of returning a response with `isError = true`. -/
theorem C3_counterexample :
    (RootzMCPServer.getFileContent (some "missing.html".data)
        (.error "ENOENT: no such file or directory".data)).result =
      .error ⟨.internalError,
        "Failed to read file missing.html: ENOENT: no such file or directory".data⟩ :=
  rfl

/-- C3, amended: the error-containment property holds only for the second
variant's dispatcher, which converts every handler failure into a normal
response with `isError = true` and a nonempty `Error: ...` message; the
first variant's handlers throw `McpError` protocol faults on failure. -/
theorem C3_thm (p e : JStr) :
    (RootzMCPService.callToolFile (some p) (.error e)).isError = true ∧
    (RootzMCPService.callToolFile (some p) (.error e)).text.isEmpty = false ∧
    (RootzMCPService.callToolFile none (.error e)).isError = true ∧
    (RootzMCPService.callToolFile none (.error e)).text.isEmpty = false ∧
    exceptOk (RootzMCPServer.getFileContent (some p) (.error e)).result = false := by
  refine ⟨rfl, rfl, rfl, rfl, ?_⟩
  by_cases hf : RootzMCPServer.jsFalsyStr (some p) = true
  · simp [RootzMCPServer.getFileContent, hf, exceptOk]
  · simp [RootzMCPServer.getFileContent, hf, exceptOk]

/-- C4: the claim is right and the code violates it.  At the failing input
`../secret` the path handed to `cat` is the raw template
`./rootz-project/../secret`, which lexically resolves outside the mirror
root; the handler performs no check, reaches the read, and returns the
file's content as a success. -/
theorem C4_thm :
    RootzMCPServer.resolvePath "../secret".data = "./rootz-project/../secret".data ∧
    RootzMCPServer.escapesMirrorRoot "../secret".data = true ∧
    (RootzMCPServer.getFileContent (some "../secret".data)
        (.ok "top secret".data)).readAttempted = true ∧
    (RootzMCPServer.getFileContent (some "../secret".data)
        (.ok "top secret".data)).result =
      .ok ⟨RootzMCPServer.formatFileContent "../secret".data "top secret".data, false⟩ :=
  ⟨by decide, by decide, rfl, rfl⟩

/-- C5, counterexample: in the second variant a genuine clone failure (the
remote is unreachable; the directory was just wiped, so it is not the
directory-already-present case) is caught and only logged — the sync
completes without any fatal error, contradicting "genuine clone failure
remains fatal". -/
theorem C5_counterexample :
    RootzMCPService.initializeSync
        (.error "fatal: unable to access remote repository".data) =
      ⟨none, some "fatal: unable to access remote repository".data⟩ :=
  rfl

/-- C5, amended: in the first variant any clone failure — its cause is never
inspected — falls through to a pull: with the directory present the pull
succeeds (fall-through), and a genuine clone failure (directory absent,
remote unreachable) ends fatal only because the pull then fails too; the
dispatch treats two clone failures with different causes identically.  In
the second variant sync wipes and re-clones, never falls through to a
pull, and catches every clone failure without surfacing it. -/
theorem C5_thm (env : GitEnv) :
    (env.dirPresent = true → env.remoteOk = true →
      RootzMCPServer.syncRepository (gitCloneResult env) (gitPullResult env) =
          .ok RootzMCPServer.syncOkResponse ∧
        exceptOk (gitCloneResult env) = false) ∧
    (env.dirPresent = false → env.remoteOk = false →
      exceptOk (RootzMCPServer.syncRepository (gitCloneResult env)
        (gitPullResult env)) = false) ∧
    (∀ e1 e2 pr, RootzMCPServer.syncRepository (.error e1) pr =
      RootzMCPServer.syncRepository (.error e2) pr) ∧
    (∀ ce, (RootzMCPService.initializeSync ce).thrown = none) := by
  obtain ⟨dp, ro⟩ := env
  refine ⟨?_, ?_, ?_, ?_⟩
  · rintro rfl rfl
    exact ⟨rfl, rfl⟩
  · rintro rfl rfl
    rfl
  · intro e1 e2 pr
    cases pr <;> rfl
  · intro ce
    cases ce <;> rfl

/-- C5, witness: the amended sync behaviour evaluated at the two concrete
environments — directory present with reachable remote (fall-through
succeeds), and directory absent with unreachable remote (fatal). -/
theorem C5_witness :
    RootzMCPServer.syncRepository (gitCloneResult ⟨true, true⟩)
        (gitPullResult ⟨true, true⟩) = .ok RootzMCPServer.syncOkResponse ∧
    exceptOk (RootzMCPServer.syncRepository (gitCloneResult ⟨false, false⟩)
        (gitPullResult ⟨false, false⟩)) = false :=
  ⟨((C5_thm ⟨true, true⟩).1 rfl rfl).1, (C5_thm ⟨false, false⟩).2.1 rfl rfl⟩

/-- C6, counterexample: the second variant's dispatcher performs no
missing-parameter check — with an empty `file_path` the read is attempted
(on the joined directory path) and the caught I/O error, not a
missing-parameter error, is returned. -/
theorem C6_counterexample :
    (RootzMCPService.callToolFile (some [])
        (.error "EISDIR: illegal operation on a directory, read".data)).readAttempted
        = true ∧
    (RootzMCPService.callToolFile (some [])
        (.error "EISDIR: illegal operation on a directory, read".data)).text =
      "Error: EISDIR: illegal operation on a directory, read".data :=
  ⟨rfl, rfl⟩

/-- C6, amended: only the first variant rejects an empty or absent path with
the `InvalidParams` "Path is required" error before any read (both for the
file tool and the analysis tool).  The second variant has no such check:
an absent argument fails inside `path.join` (no read, but the error is a
caught type error, not a missing-parameter error), and an empty-string
argument proceeds to attempt the file read. -/
theorem C6_thm (r : Except JStr JStr)
    (parse : JStr → List RootzMCPService.CheerioElem) :
    RootzMCPServer.getFileContent none r =
      ⟨.error ⟨.invalidParams, "Path is required".data⟩, false⟩ ∧
    RootzMCPServer.getFileContent (some []) r =
      ⟨.error ⟨.invalidParams, "Path is required".data⟩, false⟩ ∧
    RootzMCPServer.analyzeHtmlStructure none r =
      (.error ⟨.invalidParams, "Path is required".data⟩, false) ∧
    RootzMCPServer.analyzeHtmlStructure (some []) r =
      (.error ⟨.invalidParams, "Path is required".data⟩, false) ∧
    (RootzMCPService.callToolFile none r).readAttempted = false ∧
    (RootzMCPService.callToolFile none r).isError = true ∧
    (RootzMCPService.callToolFile (some []) r).readAttempted = true ∧
    (RootzMCPService.callToolAnalyze none r parse).2 = false ∧
    (RootzMCPService.callToolAnalyze (some []) r parse).2 = true :=
  ⟨rfl, rfl, rfl, rfl, rfl, rfl, by cases r <;> rfl, rfl, by cases r <;> rfl⟩

/-- C7, counterexample: in the second variant both sync helpers swallow
their failures — the error is logged and nothing is surfaced to the
caller, so a sync failure completes silently. -/
theorem C7_counterexample :
    (RootzMCPService.initializeSync (.error "fatal: early EOF".data)).thrown = none ∧
    (RootzMCPService.pullLatest
        (.error "fatal: could not read from remote repository".data)).thrown = none ∧
    (RootzMCPService.pullLatest
        (.error "fatal: could not read from remote repository".data)).logged =
      some "fatal: could not read from remote repository".data :=
  ⟨rfl, rfl, rfl⟩

/-- C7, amended: the first variant's sync fails exactly when neither the
clone nor the pull succeeds, and that failure surfaces as an
`InternalError` `McpError`; the second variant's `initializeSync` and
`pullLatest` catch and log every failure and surface nothing to the
caller. -/
theorem C7_thm (e1 e2 : JStr) (pr : Except JStr Unit) :
    RootzMCPServer.syncRepository (.ok ()) pr = .ok RootzMCPServer.syncOkResponse ∧
    RootzMCPServer.syncRepository (.error e1) (.ok ()) =
      .ok RootzMCPServer.syncOkResponse ∧
    RootzMCPServer.syncRepository (.error e1) (.error e2) =
      .error ⟨.internalError, "Failed to sync repository: ".data ++ e2⟩ ∧
    (RootzMCPService.initializeSync (.error e1)).thrown = none ∧
    (RootzMCPService.pullLatest (.error e2)).thrown = none :=
  ⟨rfl, rfl, rfl, rfl, rfl⟩

/-- C8: sync is idempotent with respect to the observable file tree — for
either variant's sync policy (clone-or-pull, or wipe-and-reclone), and
whether or not the remote is reachable, a second call with no remote
changes maps the tree reached by the first call to itself. -/
theorem C8_thm (remote : List (JStr × JStr)) (remoteOk : Bool)
    (tree : Option (List (JStr × JStr))) :
    serverSyncTree remote remoteOk (serverSyncTree remote remoteOk tree) =
        serverSyncTree remote remoteOk tree ∧
    serviceSyncTree remote remoteOk (serviceSyncTree remote remoteOk tree) =
        serviceSyncTree remote remoteOk tree := by
  constructor
  · cases tree <;> cases remoteOk <;> rfl
  · cases tree <;> cases remoteOk <;> rfl

/-- C9, counterexample: the regex variant adds tag-name captures to the tag
set verbatim — analysing `<DIV>` yields the tag list `["DIV"]`, which
contains upper-case letters, contrary to the claimed lower-case
normalisation. -/
theorem C9_counterexample :
    (RootzMCPServer.analyzeHtml "<DIV>".data).tags = ["DIV".data] ∧
    ((RootzMCPServer.analyzeHtml "<DIV>".data).tags.any
      (fun t => t.any (fun c => c.isUpper))) = true := by
  constructor <;> decide

/-- C9, amended: lower-case normalisation happens only in the cheerio
variant, whose `elements` entries carry `tagName?.toLowerCase() ||
'unknown'` (lower-casing an ASCII character never leaves an upper-case
letter); the regex variant adds every tag-name capture to its tag set
verbatim, preserving the case used in the markup. -/
theorem C9_thm :
    (∀ s t, t ∈ (RootzMCPServer.analyzeHtml s).tags →
      t ∈ RootzMCPServer.scanOpenTags s) ∧
    (∀ elems r, r ∈ (RootzMCPService.analyzeHTML elems).elements →
      ∃ e ∈ elems, r.tag = RootzMCPService.cheerioTagOf e) ∧
    (∀ n, n < 128 → ((Char.ofNat n).toLower.isUpper) = false) := by
  refine ⟨?_, ?_, by decide⟩
  · intro s t ht
    exact mem_of_mem_jsSetOfList (mem_of_mem_jsSortL ht)
  · intro elems r hr
    have hr' : r ∈ elems.map
        (fun e => (⟨RootzMCPService.cheerioTagOf e, e.classAttr, e.idAttr⟩ :
          RootzMCPService.ElemRec)) := hr
    rcases List.mem_map.mp hr' with ⟨e, he, hre⟩
    exact ⟨e, he, by rw [← hre]⟩

/-- C9, witness: the amended claim evaluated on concrete inputs — the
markup `<DIV>` and its verbatim capture `DIV` for the regex variant, a
one-element list for the cheerio variant's `elements` provenance, and the
character `D` (code 68) for the lower-casing fact. -/
theorem C9_witness :
    "DIV".data ∈ RootzMCPServer.scanOpenTags "<DIV>".data ∧
    (∃ e ∈ [(⟨some "DIV".data, none, none⟩ : RootzMCPService.CheerioElem)],
      ("div".data : JStr) = RootzMCPService.cheerioTagOf e) ∧
    ((Char.ofNat 68).toLower.isUpper) = false := by
  refine ⟨C9_thm.1 "<DIV>".data "DIV".data (by decide), ?_, C9_thm.2.2 68 (by norm_num)⟩
  have h := C9_thm.2.1 [⟨some "DIV".data, none, none⟩]
    ⟨"div".data, none, none⟩ (by decide)
  simpa using h

/-- C10: in the cheerio variant the analysis parses the output of the
bounded file read, so for content longer than 45000 characters the parsed
text is exactly the 45000-character prefix with the literal truncation
marker appended, and any two long contents agreeing on their first 45000
characters produce identical analysis outcomes — whatever occurs only
after the limit cannot show up in the analysis. -/
theorem C10_thm (c c2 p : JStr) (parse : JStr → List RootzMCPService.CheerioElem) :
    (c.length > 45000 →
      RootzMCPService.getFileContent c =
        c.take 45000 ++ RootzMCPService.truncMark) ∧
    (c.length > 45000 → c2.length > 45000 → c.take 45000 = c2.take 45000 →
      RootzMCPService.callToolAnalyze (some p) (.ok c) parse =
        RootzMCPService.callToolAnalyze (some p) (.ok c2) parse) := by
  constructor
  · intro h
    exact service_getFileContent_of_gt h
  · intro h1 h2 h3
    have hc : RootzMCPService.getFileContent c = RootzMCPService.getFileContent c2 := by
      rw [service_getFileContent_of_gt h1, service_getFileContent_of_gt h2,
        show RootzMCPService.MAX_FILE_SIZE = 45000 from rfl, h3]
    simp [RootzMCPService.callToolAnalyze, hc]

/-- C10, witness: on a concrete 45001-character content the parsed text is
the bounded prefix plus marker, and two concrete long contents that agree
on their first 45000 characters and differ afterwards yield the same
analysis outcome. -/
theorem C10_witness :
    RootzMCPService.getFileContent (List.replicate 45001 'a') =
        (List.replicate 45001 'a').take 45000 ++ RootzMCPService.truncMark ∧
    RootzMCPService.callToolAnalyze (some [])
        (.ok (List.replicate 45001 'a')) (fun _ => []) =
      RootzMCPService.callToolAnalyze (some [])
        (.ok (List.replicate 45000 'a' ++ ['b'])) (fun _ => []) := by
  constructor
  · exact (C10_thm (List.replicate 45001 'a') [] [] (fun _ => [])).1
      (by rw [List.length_replicate]; norm_num)
  · refine (C10_thm (List.replicate 45001 'a') (List.replicate 45000 'a' ++ ['b']) []
      (fun _ => [])).2 (by rw [List.length_replicate]; norm_num)
      (by rw [List.length_append, List.length_replicate]; norm_num) ?_
    rw [List.take_replicate, List.take_left' (by rw [List.length_replicate])]
    norm_num
